import Mathlib

/-!
Shallow embedding of the retrieval / scoring / ranking pipeline of the
repository (source files `main.py` and `test.py`).  The pipeline under
study is the one of `test.py`: the `/analyze-pdfs/` ingestion endpoint
(`PDFAnalyzer.process_pdf`, `analyze_pdfs_endpoint`), the per-chunk
scoring helper (`process_chunk`), and the query endpoint
(`chat_with_pdfs`).  External collaborators (the PDF loader, the
embedding index, the language-model scoring call, the vector
retriever) are modelled as explicit oracle parameters; every function
of the repository itself is translated directly from the source.
-/

namespace RagPipeline

/-- A retrieved text chunk, as produced by the external vector retriever.
Mirrors a langchain `Document`: `page_content` plus the metadata fields the
pipeline reads, namely `metadata.get("source")` (absent when the key is
missing) and `metadata.get("page", 0)` (absent models a missing key, read
with default 0). -/
structure Chunk where
  text : String
  source : Option String
  page : Option Nat
deriving DecidableEq, Repr

/-- The JSON object returned by the external scoring capability when the
call succeeds and parses: fields `section_title`, `refined_text`,
`relevance_score`.  A failed, timed-out or malformed call is modelled as
`none` at the call site. -/
structure LLMResponse where
  section_title : String
  refined_text : String
  relevance_score : Rat
deriving DecidableEq, Repr

/-- Pydantic model `ProcessedChunk` of `test.py` (lines 71-76): the
validated result of scoring one chunk.  The pydantic field constraint
`relevance_score : ge=0.0, le=1.0` is enforced at construction time in
`process_chunk` below. -/
structure ProcessedChunk where
  section_title : String
  refined_text : String
  relevance_score : Rat
  document : String
  page_number : Nat
deriving DecidableEq, Repr

/-- Pydantic model `ExtractedSection` of `test.py` (lines 41-45). -/
structure ExtractedSection where
  document : String
  section_title : String
  importance_rank : Nat
  page_number : Nat
deriving DecidableEq, Repr

/-- Pydantic model `SubsectionAnalysis` of `test.py` (lines 47-50). -/
structure SubsectionAnalysis where
  document : String
  refined_text : String
  page_number : Nat
deriving DecidableEq, Repr

/-- Pydantic model `StructuredChatResponse` of `test.py` (lines 52-54). -/
structure StructuredChatResponse where
  extracted_sections : List ExtractedSection
  subsection_analysis : List SubsectionAnalysis
deriving DecidableEq, Repr

/-- One entry of the in-memory registry `pdf_data_stores`: the headings
extracted at ingestion time.  The FAISS vector store kept alongside is
opaque to the pipeline logic; retrieval against it is modelled by an
oracle parameter of `chat_with_pdfs`. -/
structure StoreData where
  headings : List String
deriving DecidableEq, Repr

/-- Pydantic model `PDFAnalysisResult` of `test.py` (lines 56-59). -/
structure PDFAnalysisResult where
  filename : String
  status : String
  extracted_headings_count : Nat
deriving DecidableEq, Repr

/-- One page as produced by the external PDF loader: its text and its
0-based page number. -/
structure Page where
  page_content : String
  page : Nat
deriving DecidableEq, Repr

/-- The three `HTTPException` failures raised by `chat_with_pdfs`
(`test.py` lines 198-199, 210-211, 237-238). -/
inductive QueryError where
  | emptyRegistry
  | noCandidates
  | noneAfterFilter
deriving DecidableEq, Repr

/-- HTTP status code of each query failure, as passed to `HTTPException`
in the source. -/
def QueryError.statusCode : QueryError → Nat
  | .emptyRegistry => 400
  | .noCandidates => 404
  | .noneAfterFilter => 404

/-- Detail message of each query failure, copied verbatim from the
source. -/
def QueryError.detail : QueryError → String
  | .emptyRegistry => "No PDFs analyzed. Upload documents via /analyze-pdfs/ first."
  | .noCandidates => "Could not find any relevant information for your query."
  | .noneAfterFilter => "Found some initial matches, but none were relevant enough after filtering."

/-- The two `HTTPException` failures raised by `analyze_pdfs_endpoint`
(`test.py` lines 122-123 and 146-147). -/
inductive IngestError where
  | noFiles
  | allFailed
deriving DecidableEq, Repr

instance {ε α : Type} [DecidableEq ε] [DecidableEq α] : DecidableEq (Except ε α) :=
  fun a b =>
    match a, b with
    | .ok x, .ok y => decidable_of_iff (x = y) (by simp)
    | .error x, .error y => decidable_of_iff (x = y) (by simp)
    | .ok _, .error _ => isFalse (fun h => Except.noConfusion h)
    | .error _, .ok _ => isFalse (fun h => Except.noConfusion h)

/-- The stoplist `STOP_TITLES` of `test.py` line 80.  The source keeps it
as a Python set used only for membership tests; it is modelled as a list
with `List.contains` membership. -/
def STOP_TITLES : List String :=
  ["introduction", "conclusion", "summary", "abstract", "table of contents",
   "preface", "references", "bibliography"]

/-- Splitting a character list at every newline, the model of the Python
call `full_text.split(chr(10))`: no collapsing of consecutive separators,
and the empty string splits to one empty field. -/
def splitLinesAux : List Char → List (List Char)
  | [] => [[]]
  | c :: cs =>
    match splitLinesAux cs with
    | [] => [[]]
    | l :: ls => if c = '\n' then [] :: l :: ls else (c :: l) :: ls

/-- Model of the Python string split on the newline character. -/
def splitLines (s : String) : List String :=
  (splitLinesAux s.toList).map (fun cs => String.mk cs)

/-- Model of the Python method `str.strip` with no argument: remove
leading and trailing whitespace. -/
def strTrim (s : String) : String :=
  String.mk (((s.toList.dropWhile Char.isWhitespace).reverse.dropWhile
      Char.isWhitespace).reverse)

/-- Model of the Python method `str.lower`. -/
def strToLower (s : String) : String :=
  String.mk (s.toList.map Char.toLower)

/-- A character is cased in the sense of Python string predicates
(restricted to the simple upper/lower distinction). -/
def charCased (c : Char) : Bool := c.isUpper || c.isLower

/-- Model of the Python predicate `str.isupper`: at least one cased
character and no cased character is lowercase. -/
def strIsUpper (s : String) : Bool :=
  s.toList.any charCased && s.toList.all (fun c => !c.isLower)

/-- State machine for the Python predicate `str.istitle`: an uppercase
letter may only follow an uncased character, a lowercase letter may only
follow a cased one, and at least one cased character must occur.  The
first argument records whether the previous character was cased, the
second whether a cased character has been seen. -/
def istitleAux : Bool → Bool → List Char → Bool
  | _, seenCased, [] => seenCased
  | prevCased, seenCased, c :: rest =>
    if c.isUpper then
      if prevCased then false else istitleAux true true rest
    else if c.isLower then
      if prevCased then istitleAux true seenCased rest else false
    else istitleAux false seenCased rest

/-- Model of the Python predicate `str.istitle`. -/
def strIsTitle (s : String) : Bool := istitleAux false false s.toList

/-- The per-line acceptance test of `PDFAnalyzer.extract_headings`
(`test.py` line 95): the trimmed line has length strictly between 3 and
100 and is entirely upper-case or in title case. -/
def headingLineAccepted (t : String) : Bool :=
  (decide (3 < t.length) && decide (t.length < 100)) && (strIsUpper t || strIsTitle t)

/-- `PDFAnalyzer.extract_headings` (`test.py` lines 91-97): split the full
text on newline, trim each line, keep the accepted ones in a set.  The
Python set is modelled as a duplicate-free list (`List.dedup` keeps the
first occurrence; the source set iteration order is unspecified, and all
statements below are order-insensitive). -/
def extract_headings (full_text : String) : List String :=
  ((splitLines full_text).filterMap (fun line =>
    let t := strTrim line
    if headingLineAccepted t then some t else none)).dedup

/-- One step of the Python dict comprehension
`{doc.page_content: doc for doc in all_relevant_docs}` (`test.py` line
213): writing one document into an insertion-ordered mapping keyed by
chunk text.  An existing key keeps its position and its value is
overwritten; a new key is appended at the end. -/
def insertUpd (m : List (String × Chunk)) (d : Chunk) : List (String × Chunk) :=
  match m with
  | [] => [(d.text, d)]
  | (k, v) :: rest => if k = d.text then (k, d) :: rest else (k, v) :: insertUpd rest d

/-- The deduplication of `test.py` line 213: build the text-keyed mapping
in pool order and take its values.  Keys appear in order of first
occurrence and the last writer for a given text wins, matching Python
dict semantics. -/
def dedupByText (docs : List Chunk) : List Chunk :=
  (docs.foldl insertUpd []).map Prod.snd

/-- Plain association lookup on the modelled mapping, used to reason
about `insertUpd`. -/
def lookupText (m : List (String × Chunk)) (t : String) : Option Chunk :=
  match m with
  | [] => none
  | (k, v) :: rest => if k = t then some v else lookupText rest t

/-- The last chunk of text `t` written while folding `docs` over an
accumulator holding the previous write. -/
def lastWrite (docs : List Chunk) (t : String) (acc : Option Chunk) : Option Chunk :=
  docs.foldl (fun a d => if d.text = t then some d else a) acc

/-- Every mapping entry is keyed by the text of its chunk. -/
def keyedBy (m : List (String × Chunk)) : Prop := ∀ p ∈ m, p.1 = p.2.text

/-- The key list of the modelled mapping. -/
def keysOf (m : List (String × Chunk)) : List String := m.map Prod.fst

/-- `process_chunk` (`test.py` lines 156-193) with the external LLM call
abstracted to its outcome: `none` models an exception, timeout or
unparseable response anywhere in the try block.  On a parsed response the
source overwrites `document` and `page_number` from the chunk metadata
and then validates through the pydantic `ProcessedChunk` model, whose
range constraint on `relevance_score` turns an out-of-range score into a
validation exception, hence `none`. -/
def process_chunk (llmResult : Option LLMResponse) (chunk : Chunk) : Option ProcessedChunk :=
  match llmResult with
  | none => none
  | some r =>
    if 0 ≤ r.relevance_score ∧ r.relevance_score ≤ 1 then
      some { section_title := r.section_title, refined_text := r.refined_text,
             relevance_score := r.relevance_score,
             document := chunk.source.getD "Unknown",
             page_number := chunk.page.getD 0 + 1 }
    else none

/-- Step 1 of `chat_with_pdfs` (`test.py` lines 202-208): fan the query
out to the retriever of every registered store and concatenate the
returned lists in registry order.  The vector search itself is the
oracle `retrieve`, indexed by store key. -/
def retrievedPool (stores : List (String × StoreData))
    (retrieve : String → List Chunk) : List Chunk :=
  (stores.map (fun p => retrieve p.1)).flatten

/-- The per-chunk guard of `test.py` lines 217-221: read
`metadata.get("source")` and schedule the chunk for scoring, paired with
the headings of its store, only when that source is a key of
`pdf_data_stores`. -/
def scheduleChunk (stores : List (String × StoreData)) (d : Chunk) :
    Option (Chunk × List String) :=
  match d.source with
  | none => none
  | some s =>
    match stores.lookup s with
    | none => none
    | some data => some (d, data.headings)

/-- The list of chunks actually submitted to scoring, in pool order
(`test.py` lines 216-221). -/
def scheduledOf (stores : List (String × StoreData)) (docs : List Chunk) :
    List (Chunk × List String) :=
  docs.filterMap (scheduleChunk stores)

/-- The deduplicated candidate pool of a query (`unique_docs`,
`test.py` line 213). -/
def uniqueDocs (stores : List (String × StoreData))
    (retrieve : String → List Chunk) : List Chunk :=
  dedupByText (retrievedPool stores retrieve)

/-- The chunks scheduled for scoring in a query. -/
def scheduledChunks (stores : List (String × StoreData))
    (retrieve : String → List Chunk) : List (Chunk × List String) :=
  scheduledOf stores (uniqueDocs stores retrieve)

/-- `processed_results` (`test.py` line 223): each scheduled chunk is
scored independently; the oracle `llm` gives the outcome of the external
call for a chunk and a heading list. -/
def processedResults (stores : List (String × StoreData))
    (retrieve : String → List Chunk)
    (llm : Chunk → List String → Option LLMResponse) : List (Option ProcessedChunk) :=
  (scheduledChunks stores retrieve).map (fun p => process_chunk (llm p.1 p.2) p.1)

/-- `valid_results` (`test.py` line 226): drop the failed scorings. -/
def validResults (stores : List (String × StoreData))
    (retrieve : String → List Chunk)
    (llm : Chunk → List String → Option LLMResponse) : List ProcessedChunk :=
  (processedResults stores retrieve llm).filterMap id

/-- The literal `0.4` of `test.py` line 231, written with `mkRat` so
that the kernel can evaluate comparisons against it; the bridging lemma
`relevanceThreshold_eq` below identifies it with the decimal literal. -/
def relevanceThreshold : Rat := mkRat 4 10

/-- The combined stoplist and threshold filter of `test.py` lines
229-232: keep a result iff its section title, lower-cased then trimmed,
is not in `STOP_TITLES` and its relevance score is strictly greater
than 0.4. -/
def passesFilter (r : ProcessedChunk) : Bool :=
  !(STOP_TITLES.contains (strTrim (strToLower r.section_title))) &&
    decide (relevanceThreshold < r.relevance_score)

/-- `filtered_results` (`test.py` lines 229-232). -/
def filteredResults (stores : List (String × StoreData))
    (retrieve : String → List Chunk)
    (llm : Chunk → List String → Option LLMResponse) : List ProcessedChunk :=
  (validResults stores retrieve llm).filter passesFilter

/-- The descending-score ordering used by `test.py` line 235:
`scoreGE a b` holds when `a` ranks at or above `b`. -/
def scoreGE (a b : ProcessedChunk) : Prop :=
  b.relevance_score ≤ a.relevance_score

instance : DecidableRel scoreGE :=
  fun a b => inferInstanceAs (Decidable (b.relevance_score ≤ a.relevance_score))

instance : IsTotal ProcessedChunk scoreGE :=
  ⟨fun a b => le_total b.relevance_score a.relevance_score⟩

instance : IsTrans ProcessedChunk scoreGE :=
  ⟨fun _ _ _ h1 h2 => le_trans h2 h1⟩

/-- `sorted_results` (`test.py` line 235).  The Python builtin `sorted`
with `reverse=True` is a stable sort placing higher keys first; it is
modelled by the stable `List.insertionSort` under `scoreGE`, which
inserts every element ahead of all later-encountered elements of equal
score. -/
def sortedResults (stores : List (String × StoreData))
    (retrieve : String → List Chunk)
    (llm : Chunk → List String → Option LLMResponse) : List ProcessedChunk :=
  List.insertionSort scoreGE (filteredResults stores retrieve llm)

/-- Step 4 of `chat_with_pdfs` (`test.py` lines 241-258): truncate to the
top 7 results and project them, with 1-based ranks, into the two aligned
output lists. -/
def assembleResponse (sorted : List ProcessedChunk) : StructuredChatResponse :=
  let top := sorted.take 7
  { extracted_sections := top.enum.map (fun p =>
      { document := p.2.document, section_title := p.2.section_title,
        importance_rank := p.1 + 1, page_number := p.2.page_number }),
    subsection_analysis := top.map (fun r =>
      { document := r.document, refined_text := r.refined_text,
        page_number := r.page_number }) }

/-- `chat_with_pdfs` (`test.py` lines 196-258), with the registry, the
vector retriever and the scoring call made explicit. -/
def chat_with_pdfs (stores : List (String × StoreData))
    (retrieve : String → List Chunk)
    (llm : Chunk → List String → Option LLMResponse) :
    Except QueryError StructuredChatResponse :=
  if stores = [] then .error .emptyRegistry
  else if retrievedPool stores retrieve = [] then .error .noCandidates
  else if sortedResults stores retrieve llm = [] then .error .noneAfterFilter
  else .ok (assembleResponse (sortedResults stores retrieve llm))

/-- The Python expression `a_string + chr(10) joined page contents`
(`test.py` line 105): join the page texts with newlines. -/
def joinPages : List Page → String
  | [] => ""
  | [p] => p.page_content
  | p :: rest => p.page_content ++ "\n" ++ joinPages rest

/-- `PDFAnalyzer.process_pdf` (`test.py` lines 99-114) with the two
external steps abstracted to their outcomes: `load` is the PyPDF page
loading (`none` models a raised exception) and `embed` the FAISS index
construction over the chunks (`none` models a raised exception).  The
whole body runs under one try/except returning `None` on any failure,
and an empty page list returns `None` explicitly. -/
def process_pdf (load : Option (List Page)) (embed : Option Unit) : Option StoreData :=
  match load with
  | none => none
  | some pages =>
    if pages = [] then none
    else
      match embed with
      | none => none
      | some _ => some { headings := extract_headings (joinPages pages) }

/-- Model of the Python test `filename.lower().endswith(chr(46) pdf)`
(`test.py` line 130). -/
def isPdfName (f : String) : Bool :=
  ".pdf".toList.isSuffixOf (strToLower f).toList

/-- The success list built by `analyze_pdfs_endpoint` (`test.py` lines
128-144): every uploaded filename is handled independently, non-pdf
names are skipped, and a file enters the list exactly when its
`process_pdf` call succeeds. -/
def ingestOutcomes (files : List String) (load : String → Option (List Page))
    (embed : String → Option Unit) : List PDFAnalysisResult :=
  files.filterMap (fun f =>
    if isPdfName f then
      (process_pdf (load f) (embed f)).map (fun data =>
        { filename := f, status := "Successfully processed and indexed.",
          extracted_headings_count := data.headings.length })
    else none)

/-- `analyze_pdfs_endpoint` (`test.py` lines 119-153): reject an empty
upload list, otherwise fail iff no document was processed
successfully. -/
def analyze_pdfs (files : List String) (load : String → Option (List Page))
    (embed : String → Option Unit) : Except IngestError (List PDFAnalysisResult) :=
  if files = [] then .error .noFiles
  else if ingestOutcomes files load embed = [] then .error .allFailed
  else .ok (ingestOutcomes files load embed)

/-! Concrete scenario used to instantiate the theorems below: one
registered store, a retrieval pool exercising the stoplist filter, the
threshold boundary, a failing scoring call, an unregistered source and a
missing source. -/

/-- Registry with a single ingested document. -/
def wStores : List (String × StoreData) :=
  [("a.pdf", { headings := ["Results", "Methods"] })]

/-- Chunk whose scoring passes every filter. -/
def wChunkTop : Chunk := { text := "alpha", source := some "a.pdf", page := some 0 }

/-- Chunk whose chosen heading is stoplisted. -/
def wChunkIntro : Chunk := { text := "beta", source := some "a.pdf", page := some 1 }

/-- Chunk scored exactly at the 0.4 threshold. -/
def wChunkEdge : Chunk := { text := "gamma", source := some "a.pdf", page := some 2 }

/-- Chunk whose scoring call fails. -/
def wChunkFail : Chunk := { text := "zeta", source := some "a.pdf", page := some 3 }

/-- Chunk whose source is not a registry key. -/
def wChunkStray : Chunk := { text := "delta", source := some "ghost.pdf", page := some 0 }

/-- Chunk with no source metadata at all. -/
def wChunkBare : Chunk := { text := "iota", source := none, page := none }

/-- Retrieval oracle returning the six scenario chunks. -/
def wRetrieve : String → List Chunk := fun _ =>
  [wChunkTop, wChunkIntro, wChunkEdge, wChunkFail, wChunkStray, wChunkBare]

/-- Scoring response for `wChunkTop`. -/
def wRespTop : LLMResponse :=
  { section_title := "Results", refined_text := "alpha text", relevance_score := mkRat 9 10 }

/-- Scoring response for `wChunkIntro`. -/
def wRespIntro : LLMResponse :=
  { section_title := "Introduction", refined_text := "beta text", relevance_score := mkRat 8 10 }

/-- Scoring response for `wChunkEdge`. -/
def wRespEdge : LLMResponse :=
  { section_title := "Methods", refined_text := "gamma text", relevance_score := mkRat 4 10 }

/-- A scoring response whose score violates the `[0, 1]` range. -/
def wRespBad : LLMResponse :=
  { section_title := "Methods", refined_text := "bad text", relevance_score := mkRat 15 10 }

/-- Scoring oracle for the scenario; the call for `wChunkFail` raises. -/
def wLLM : Chunk → List String → Option LLMResponse := fun c _ =>
  if c.text = "alpha" then some wRespTop
  else if c.text = "beta" then some wRespIntro
  else if c.text = "gamma" then some wRespEdge
  else none

/-- The scored chunk surviving the filters in the scenario. -/
def wProcTop : ProcessedChunk :=
  { section_title := "Results", refined_text := "alpha text", relevance_score := mkRat 9 10,
    document := "a.pdf", page_number := 1 }

/-- The stoplisted scored chunk of the scenario. -/
def wProcIntro : ProcessedChunk :=
  { section_title := "Introduction", refined_text := "beta text", relevance_score := mkRat 8 10,
    document := "a.pdf", page_number := 2 }

/-- The threshold-boundary scored chunk of the scenario. -/
def wProcEdge : ProcessedChunk :=
  { section_title := "Methods", refined_text := "gamma text", relevance_score := mkRat 4 10,
    document := "a.pdf", page_number := 3 }

/-- The successful response of the scenario query. -/
def wResponse : StructuredChatResponse :=
  { extracted_sections :=
      [{ document := "a.pdf", section_title := "Results", importance_rank := 1,
         page_number := 1 }],
    subsection_analysis :=
      [{ document := "a.pdf", refined_text := "alpha text", page_number := 1 }] }

/-- First chunk of a duplicated text, used for the deduplication claim. -/
def wDupA : Chunk := { text := "dup", source := some "a.pdf", page := some 0 }

/-- Second chunk with the same text from another document. -/
def wDupB : Chunk := { text := "dup", source := some "b.pdf", page := some 4 }

/-- A pool with a duplicated text. -/
def wDocs : List Chunk := [wDupA, wChunkTop, wDupB]

/-- One readable page for the ingestion scenario. -/
def wPage : Page := { page_content := "HEADING ONE\nbody text here", page := 0 }

/-- Upload batch mixing a good pdf, a non-pdf name, a pdf whose load
raises and a pdf with zero pages. -/
def wFiles : List String := ["good.pdf", "notes.txt", "broken.pdf", "empty.pdf"]

/-- Loader oracle for the ingestion scenario. -/
def wLoad : String → Option (List Page) := fun f =>
  if f = "good.pdf" then some [wPage]
  else if f = "empty.pdf" then some []
  else none

/-- Embedding oracle for the ingestion scenario: always succeeds. -/
def wEmbed : String → Option Unit := fun _ => some ()

/-! Helper lemmas. -/

/-- The acceptance test of a heading line, unfolded to a proposition. -/
theorem headingLineAccepted_iff (t : String) :
    headingLineAccepted t = true ↔
      3 < t.length ∧ t.length < 100 ∧ (strIsUpper t = true ∨ strIsTitle t = true) := by
  simp [headingLineAccepted, and_assoc]

/-- The modelled threshold is the decimal literal of the source. -/
theorem relevanceThreshold_eq : relevanceThreshold = (0.4 : Rat) := by
  norm_num [relevanceThreshold, Rat.ofScientific_true_def]

/-! Claim C9. -/

/-- C9: for every input text, the heading extractor returns exactly the
set of lines that, after trimming, have length strictly between 3 and
100 and are entirely upper-case or in title case; duplicates are
collapsed, there are no error conditions, and empty input yields an
empty set. -/
theorem C9_heading_extractor (s : String) :
    (∀ t : String, t ∈ extract_headings s ↔
      ∃ line ∈ splitLines s, strTrim line = t ∧ 3 < t.length ∧ t.length < 100 ∧
        (strIsUpper t = true ∨ strIsTitle t = true)) ∧
    (extract_headings s).Nodup ∧ extract_headings "" = [] := by
  refine ⟨?_, List.nodup_dedup _, by decide⟩
  intro t
  rw [extract_headings, List.mem_dedup, List.mem_filterMap]
  constructor
  · rintro ⟨line, hline, hsome⟩
    dsimp only at hsome
    by_cases hacc : headingLineAccepted (strTrim line)
    · rw [if_pos hacc] at hsome
      obtain ⟨h1, h2, h3⟩ := (headingLineAccepted_iff _).mp hacc
      cases hsome
      exact ⟨line, hline, rfl, h1, h2, h3⟩
    · rw [if_neg hacc] at hsome
      exact absurd hsome (Option.noConfusion)
  · rintro ⟨line, hline, rfl, h1, h2, h3⟩
    refine ⟨line, hline, ?_⟩
    dsimp only
    rw [if_pos ((headingLineAccepted_iff _).mpr ⟨h1, h2, h3⟩)]

/-! Claim C1. -/

/-- C1 counterexample: the conditions "no candidates retrieved" and
"candidates found but none passed filtering" are distinct failure
conditions, yet they carry the same HTTP status code 404, so the three
failure conditions do not map to three distinct failure codes. -/
theorem C1_counterexample_shared_status :
    QueryError.noCandidates ≠ QueryError.noneAfterFilter ∧
    QueryError.statusCode QueryError.noCandidates =
      QueryError.statusCode QueryError.noneAfterFilter :=
  ⟨by decide, rfl⟩

/-- C1 (amended): every failed query reports exactly one of three
distinguishable conditions — empty registry, non-empty registry with an
empty merged retrieval pool, and candidates retrieved but none surviving
scoring and filtering — and the three map to pairwise distinct detail
messages; their HTTP status codes however are 400, 404, 404, so the two
retrieval-stage failures share a status code and are told apart only by
the detail message. -/
theorem C1_failure_conditions (stores : List (String × StoreData))
    (retrieve : String → List Chunk)
    (llm : Chunk → List String → Option LLMResponse) :
    (chat_with_pdfs stores retrieve llm = .error .emptyRegistry ↔ stores = []) ∧
    (chat_with_pdfs stores retrieve llm = .error .noCandidates ↔
      stores ≠ [] ∧ retrievedPool stores retrieve = []) ∧
    (chat_with_pdfs stores retrieve llm = .error .noneAfterFilter ↔
      stores ≠ [] ∧ retrievedPool stores retrieve ≠ [] ∧
        sortedResults stores retrieve llm = []) ∧
    QueryError.detail .emptyRegistry ≠ QueryError.detail .noCandidates ∧
    QueryError.detail .emptyRegistry ≠ QueryError.detail .noneAfterFilter ∧
    QueryError.detail .noCandidates ≠ QueryError.detail .noneAfterFilter ∧
    QueryError.statusCode .emptyRegistry = 400 ∧
    QueryError.statusCode .noCandidates = 404 ∧
    QueryError.statusCode .noneAfterFilter = 404 := by
  refine ⟨?_, ?_, ?_, by decide, by decide, by decide, rfl, rfl, rfl⟩ <;>
    unfold chat_with_pdfs <;> split_ifs with h1 h2 h3 <;> simp_all

/-! Claim C5. -/

/-- Shape of the assembled response, for any ranked list: the two output
lists have equal length, at most 7 entries, dense 1-based ranks, and are
aligned on document and page at every index. -/
theorem assembleResponse_shape (l : List ProcessedChunk) :
    (assembleResponse l).extracted_sections.length =
      (assembleResponse l).subsection_analysis.length ∧
    (assembleResponse l).extracted_sections.length ≤ 7 ∧
    ((assembleResponse l).extracted_sections.map (fun e => e.importance_rank)) =
      List.range' 1 (assembleResponse l).extracted_sections.length ∧
    ∀ i (hi : i < (assembleResponse l).extracted_sections.length)
      (hj : i < (assembleResponse l).subsection_analysis.length),
      ((assembleResponse l).extracted_sections.get ⟨i, hi⟩).document =
        ((assembleResponse l).subsection_analysis.get ⟨i, hj⟩).document ∧
      ((assembleResponse l).extracted_sections.get ⟨i, hi⟩).page_number =
        ((assembleResponse l).subsection_analysis.get ⟨i, hj⟩).page_number := by
  have enum_rank : ∀ (m : List ProcessedChunk),
      m.enum.map (fun p => p.1 + 1) = List.range' 1 m.length := by
    intro m
    rw [show (fun p : Nat × ProcessedChunk => p.1 + 1) =
        (fun n => n + 1) ∘ Prod.fst from rfl,
      ← List.map_map, List.enum_map_fst, List.range'_eq_map_range]
    exact List.map_congr_left (fun a _ => Nat.add_comm a 1)
  unfold assembleResponse
  dsimp only
  refine ⟨by simp, ?_, ?_, ?_⟩
  · simp only [List.length_map, List.enum_length, List.length_take]
    exact Nat.min_le_left 7 l.length
  · rw [List.map_map]
    simp only [List.length_map, List.enum_length]
    exact enum_rank (l.take 7)
  · intro i hi hj
    simp [List.get_eq_getElem]

/-- C5: in every successful query response the two output lists have
equal length, are aligned index-by-index on document and page, have at
most 7 entries, and the importance ranks are exactly the dense sequence
from 1 to the length. -/
theorem C5_response_shape (stores : List (String × StoreData))
    (retrieve : String → List Chunk)
    (llm : Chunk → List String → Option LLMResponse)
    (resp : StructuredChatResponse)
    (h : chat_with_pdfs stores retrieve llm = .ok resp) :
    resp.extracted_sections.length = resp.subsection_analysis.length ∧
    resp.extracted_sections.length ≤ 7 ∧
    (resp.extracted_sections.map (fun e => e.importance_rank)) =
      List.range' 1 resp.extracted_sections.length ∧
    ∀ i (hi : i < resp.extracted_sections.length)
      (hj : i < resp.subsection_analysis.length),
      (resp.extracted_sections.get ⟨i, hi⟩).document =
        (resp.subsection_analysis.get ⟨i, hj⟩).document ∧
      (resp.extracted_sections.get ⟨i, hi⟩).page_number =
        (resp.subsection_analysis.get ⟨i, hj⟩).page_number := by
  unfold chat_with_pdfs at h
  split_ifs at h
  injection h with h
  subst h
  exact assembleResponse_shape _

/-- Witness for C5 at the concrete scenario query. -/
theorem C5_witness :
    wResponse.extracted_sections.length = wResponse.subsection_analysis.length ∧
    wResponse.extracted_sections.length ≤ 7 ∧
    (wResponse.extracted_sections.map (fun e => e.importance_rank)) =
      List.range' 1 wResponse.extracted_sections.length ∧
    ∀ i (hi : i < wResponse.extracted_sections.length)
      (hj : i < wResponse.subsection_analysis.length),
      (wResponse.extracted_sections.get ⟨i, hi⟩).document =
        (wResponse.subsection_analysis.get ⟨i, hj⟩).document ∧
      (wResponse.extracted_sections.get ⟨i, hi⟩).page_number =
        (wResponse.subsection_analysis.get ⟨i, hj⟩).page_number :=
  C5_response_shape wStores wRetrieve wLLM wResponse (by decide)

/-! Claims C2, C3, C4. -/

/-- Sorting is a permutation, so membership in the ranked list and in
the filtered list coincide. -/
theorem mem_sortedResults {stores : List (String × StoreData)}
    {retrieve : String → List Chunk}
    {llm : Chunk → List String → Option LLMResponse} {r : ProcessedChunk} :
    r ∈ sortedResults stores retrieve llm ↔ r ∈ filteredResults stores retrieve llm :=
  (List.perm_insertionSort scoreGE _).mem_iff

/-- The filter of the pipeline, unfolded to a proposition with the
decimal threshold literal of the source. -/
theorem passesFilter_iff (r : ProcessedChunk) :
    passesFilter r = true ↔
      strTrim (strToLower r.section_title) ∉ STOP_TITLES ∧
        (0.4 : Rat) < r.relevance_score := by
  rw [← relevanceThreshold_eq]
  simp [passesFilter]

/-- A member of the ranked list passes the combined filter. -/
theorem passesFilter_of_mem_sortedResults {stores : List (String × StoreData)}
    {retrieve : String → List Chunk}
    {llm : Chunk → List String → Option LLMResponse} {r : ProcessedChunk}
    (h : r ∈ sortedResults stores retrieve llm) :
    strTrim (strToLower r.section_title) ∉ STOP_TITLES ∧
      (0.4 : Rat) < r.relevance_score := by
  have hf : r ∈ (validResults stores retrieve llm).filter passesFilter :=
    mem_sortedResults.mp h
  exact (passesFilter_iff r).mp (List.of_mem_filter hf)

/-- C2: every ranked result has relevance score strictly above 0.4, and
a scored chunk whose relevance score is exactly 0.4 never reaches the
ranked list. -/
theorem C2_threshold (stores : List (String × StoreData))
    (retrieve : String → List Chunk)
    (llm : Chunk → List String → Option LLMResponse) :
    (∀ r ∈ sortedResults stores retrieve llm,
      (0.4 : Rat) < r.relevance_score) ∧
    (∀ r ∈ validResults stores retrieve llm, r.relevance_score = (0.4 : Rat) →
      r ∉ sortedResults stores retrieve llm) := by
  constructor
  · intro r hr
    exact (passesFilter_of_mem_sortedResults hr).2
  · intro r _ heq hmem
    have hlt := (passesFilter_of_mem_sortedResults hmem).2
    rw [heq] at hlt
    exact lt_irrefl _ hlt

/-- Witness for C2: in the scenario the surviving result scores above
the threshold, and the chunk scored exactly 0.4 is excluded. -/
theorem C2_witness :
    ((0.4 : Rat) < wProcTop.relevance_score) ∧
      wProcEdge ∉ sortedResults wStores wRetrieve wLLM :=
  ⟨(C2_threshold wStores wRetrieve wLLM).1 wProcTop (by decide),
   (C2_threshold wStores wRetrieve wLLM).2 wProcEdge (by decide)
     (by rw [← relevanceThreshold_eq]; decide)⟩

/-- C3: no ranked result has a stoplisted section title (after
lower-casing and trimming), and a scored chunk whose title is
stoplisted is dropped before ranking. -/
theorem C3_stoplist (stores : List (String × StoreData))
    (retrieve : String → List Chunk)
    (llm : Chunk → List String → Option LLMResponse) :
    (∀ r ∈ sortedResults stores retrieve llm,
      strTrim (strToLower r.section_title) ∉ STOP_TITLES) ∧
    (∀ r ∈ validResults stores retrieve llm,
      strTrim (strToLower r.section_title) ∈ STOP_TITLES →
        r ∉ sortedResults stores retrieve llm) := by
  constructor
  · intro r hr
    exact (passesFilter_of_mem_sortedResults hr).1
  · intro r _ hstop hmem
    exact (passesFilter_of_mem_sortedResults hmem).1 hstop

/-- Witness for C3: the surviving result of the scenario is not
stoplisted, and the chunk titled Introduction is excluded. -/
theorem C3_witness :
    (strTrim (strToLower wProcTop.section_title) ∉ STOP_TITLES) ∧
      wProcIntro ∉ sortedResults wStores wRetrieve wLLM :=
  ⟨(C3_stoplist wStores wRetrieve wLLM).1 wProcTop (by decide),
   (C3_stoplist wStores wRetrieve wLLM).2 wProcIntro (by decide) (by decide)⟩

/-- C4: the ranked list is sorted by non-increasing relevance score, and
the sort is stable: for every score value, the subsequence of results
carrying that score is exactly the subsequence of the pre-sort filtered
list carrying that score, in the same order. -/
theorem C4_sort_order (stores : List (String × StoreData))
    (retrieve : String → List Chunk)
    (llm : Chunk → List String → Option LLMResponse) :
    (sortedResults stores retrieve llm).Pairwise
      (fun a b => b.relevance_score ≤ a.relevance_score) ∧
    (∀ q : Rat, (sortedResults stores retrieve llm).filter
        (fun r => decide (r.relevance_score = q)) =
      (filteredResults stores retrieve llm).filter
        (fun r => decide (r.relevance_score = q))) := by
  constructor
  · exact List.sorted_insertionSort scoreGE _
  · intro q
    have hallq : ∀ a ∈ (filteredResults stores retrieve llm).filter
        (fun r => decide (r.relevance_score = q)), a.relevance_score = q := by
      intro a ha
      exact of_decide_eq_true (List.mem_filter.mp ha).2
    have hpair : ((filteredResults stores retrieve llm).filter
        (fun r => decide (r.relevance_score = q))).Pairwise scoreGE := by
      apply List.pairwise_of_forall_mem_list
      intro a ha b hb
      show b.relevance_score ≤ a.relevance_score
      rw [hallq a ha, hallq b hb]
    have hsubl : List.Sublist ((filteredResults stores retrieve llm).filter
        (fun r => decide (r.relevance_score = q)))
        (sortedResults stores retrieve llm) :=
      List.sublist_insertionSort hpair (List.filter_sublist _)
    have hfeq : ((filteredResults stores retrieve llm).filter
          (fun r => decide (r.relevance_score = q))).filter
          (fun r => decide (r.relevance_score = q)) =
        (filteredResults stores retrieve llm).filter
          (fun r => decide (r.relevance_score = q)) := by
      apply List.filter_eq_self.mpr
      intro a ha
      exact (List.mem_filter.mp ha).2
    have hsub2 : List.Sublist ((filteredResults stores retrieve llm).filter
        (fun r => decide (r.relevance_score = q)))
        ((sortedResults stores retrieve llm).filter
          (fun r => decide (r.relevance_score = q))) := by
      have hstep := List.Sublist.filter (fun r => decide (r.relevance_score = q)) hsubl
      rwa [hfeq] at hstep
    have hlen : ((sortedResults stores retrieve llm).filter
          (fun r => decide (r.relevance_score = q))).length =
        ((filteredResults stores retrieve llm).filter
          (fun r => decide (r.relevance_score = q))).length :=
      (((List.perm_insertionSort scoreGE _)).filter _).length_eq
    exact (hsub2.eq_of_length hlen.symm).symm

/-! Claim C6. -/

/-- Writing a chunk updates exactly its own key. -/
theorem lookupText_insertUpd (m : List (String × Chunk)) (d : Chunk) (t : String) :
    lookupText (insertUpd m d) t = if d.text = t then some d else lookupText m t := by
  induction m with
  | nil => simp [insertUpd, lookupText]
  | cons q rest ih =>
    obtain ⟨k, v⟩ := q
    by_cases hk : k = d.text
    · by_cases ht : k = t
      · have hdt : d.text = t := hk.symm.trans ht
        simp [insertUpd, hk, lookupText, ht, hdt]
      · have hdt : ¬ d.text = t := fun h => ht (hk.trans h)
        simp [insertUpd, hk, lookupText, ht, hdt]
    · by_cases ht : k = t
      · have hdt : ¬ d.text = t := fun h => hk (ht.trans h.symm)
        have htd : ¬ t = d.text := fun h => hdt h.symm
        simp [insertUpd, hk, lookupText, ht, hdt, htd]
      · simp [insertUpd, hk, lookupText, ht, ih]

/-- Folding the pool into the mapping realises last-writer-wins lookup. -/
theorem lookupText_foldl (docs : List Chunk) (m : List (String × Chunk)) (t : String) :
    lookupText (docs.foldl insertUpd m) t = lastWrite docs t (lookupText m t) := by
  induction docs generalizing m with
  | nil => rfl
  | cons d rest ih =>
    show lookupText (rest.foldl insertUpd (insertUpd m d)) t =
      lastWrite rest t (if d.text = t then some d else lookupText m t)
    rw [ih, lookupText_insertUpd]

/-- A successful `getLast?` result is a member of its list. -/
theorem mem_of_getLast_eq {α : Type} {l : List α} {a : α}
    (h : l.getLast? = some a) : a ∈ l := by
  rcases List.mem_getLast?_eq_getLast (show a ∈ l.getLast? by rw [h]; rfl) with ⟨hne, heq⟩
  exact heq ▸ List.getLast_mem hne

/-- The head is the fallback result of `getLast?` on a cons cell. -/
theorem getLast?_cons_or {α : Type} (x : α) (l : List α) :
    (x :: l).getLast? = Option.or l.getLast? (some x) := by
  induction l with
  | nil => simp
  | cons y ys _ =>
    rw [List.getLast?_cons_cons]
    have hne : (y :: ys) ≠ [] := List.cons_ne_nil y ys
    obtain ⟨z, hz⟩ := Option.isSome_iff_exists.mp (List.getLast?_isSome.mpr hne)
    rw [hz]
    rfl

/-- The accumulator-threaded last write is the last element of the
filtered pool, with the accumulator as fallback. -/
theorem lastWrite_eq_getLast (docs : List Chunk) (t : String) (acc : Option Chunk) :
    lastWrite docs t acc =
      Option.or ((docs.filter (fun x => x.text == t)).getLast?) acc := by
  induction docs generalizing acc with
  | nil => rfl
  | cons d rest ih =>
    show lastWrite rest t (if d.text = t then some d else acc) = _
    rw [ih]
    by_cases hd : d.text = t
    · have hf : (d :: rest).filter (fun x => x.text == t) =
          d :: rest.filter (fun x => x.text == t) := by
        simp [List.filter_cons, hd]
      rw [if_pos hd, hf, getLast?_cons_or]
      cases hfr : (rest.filter (fun x => x.text == t)).getLast? <;> rfl
    · have hf : (d :: rest).filter (fun x => x.text == t) =
          rest.filter (fun x => x.text == t) := by
        simp [List.filter_cons, hd]
      rw [if_neg hd, hf]

/-- `insertUpd` preserves the key-text pairing invariant. -/
theorem keyedBy_insertUpd {m : List (String × Chunk)} (hm : keyedBy m) (d : Chunk) :
    keyedBy (insertUpd m d) := by
  induction m with
  | nil =>
    intro p hp
    simp [insertUpd] at hp
    subst hp
    rfl
  | cons q rest ih =>
    obtain ⟨k, v⟩ := q
    have hrest : keyedBy rest := fun p hp => hm p (List.mem_cons_of_mem _ hp)
    intro p hp
    by_cases hk : k = d.text
    · subst hk
      simp only [insertUpd, if_pos rfl] at hp
      rcases List.mem_cons.mp hp with h | h
      · subst h
        rfl
      · exact hm p (List.mem_cons_of_mem _ h)
    · simp only [insertUpd, if_neg hk] at hp
      rcases List.mem_cons.mp hp with h | h
      · subst h
        exact hm (k, v) (List.mem_cons_self _ _)
      · exact ih hrest p h

/-- The key list after a write: unchanged for an old key, extended for a
new one. -/
theorem keysOf_insertUpd (m : List (String × Chunk)) (d : Chunk) :
    keysOf (insertUpd m d) =
      if d.text ∈ keysOf m then keysOf m else keysOf m ++ [d.text] := by
  induction m with
  | nil => simp [insertUpd, keysOf]
  | cons q rest ih =>
    obtain ⟨k, v⟩ := q
    by_cases hk : k = d.text
    · have h1 : insertUpd ((k, v) :: rest) d = (k, d) :: rest := by
        simp [insertUpd, hk]
      have hmem : d.text ∈ keysOf ((k, v) :: rest) := by
        simp [keysOf, hk.symm]
      rw [h1, if_pos hmem]
      simp [keysOf]
    · have h1 : insertUpd ((k, v) :: rest) d = (k, v) :: insertUpd rest d := by
        simp [insertUpd, hk]
      have hne : ¬ d.text = k := fun h => hk h.symm
      rw [h1]
      by_cases hmem : d.text ∈ keysOf rest
      · have hmem2 : d.text ∈ keysOf ((k, v) :: rest) := by
          show d.text ∈ k :: keysOf rest
          exact List.mem_cons_of_mem _ hmem
        rw [if_pos hmem2]
        show k :: keysOf (insertUpd rest d) = k :: keysOf rest
        rw [ih, if_pos hmem]
      · have hmem2 : d.text ∉ keysOf ((k, v) :: rest) := by
          intro hcon
          rcases List.mem_cons.mp (show d.text ∈ k :: keysOf rest from hcon) with h | h
          · exact hne h
          · exact hmem h
        rw [if_neg hmem2]
        show k :: keysOf (insertUpd rest d) = k :: (keysOf rest ++ [d.text])
        rw [ih, if_neg hmem]

/-- `insertUpd` preserves distinctness of keys. -/
theorem keysNodup_insertUpd {m : List (String × Chunk)}
    (hm : (keysOf m).Nodup) (d : Chunk) : (keysOf (insertUpd m d)).Nodup := by
  rw [keysOf_insertUpd]
  by_cases hmem : d.text ∈ keysOf m
  · rwa [if_pos hmem]
  · rw [if_neg hmem]
    simp [List.nodup_append, hm, hmem]

/-- Folding the pool preserves the key-text pairing invariant. -/
theorem keyedBy_foldl (docs : List Chunk) {m : List (String × Chunk)}
    (hm : keyedBy m) : keyedBy (docs.foldl insertUpd m) := by
  induction docs generalizing m with
  | nil => exact hm
  | cons d rest ih => exact ih (keyedBy_insertUpd hm d)

/-- Folding the pool preserves distinctness of keys. -/
theorem keysNodup_foldl (docs : List Chunk) {m : List (String × Chunk)}
    (hm : (keysOf m).Nodup) : (keysOf (docs.foldl insertUpd m)).Nodup := by
  induction docs generalizing m with
  | nil => exact hm
  | cons d rest ih => exact ih (keysNodup_insertUpd hm d)

/-- On a well-formed mapping, being among the values is the same as
being the lookup result of ones own text. -/
theorem mem_values_iff_lookupText {m : List (String × Chunk)}
    (hkeyed : keyedBy m) (hnd : (keysOf m).Nodup) (d : Chunk) :
    d ∈ m.map Prod.snd ↔ lookupText m d.text = some d := by
  induction m with
  | nil => simp [lookupText]
  | cons q rest ih =>
    obtain ⟨k, v⟩ := q
    have hk : k = v.text := hkeyed (k, v) (List.mem_cons_self _ _)
    have hkeyed2 : keyedBy rest := fun p hp => hkeyed p (List.mem_cons_of_mem _ hp)
    have hndc := List.nodup_cons.mp (show (k :: keysOf rest).Nodup from hnd)
    have hnd2 : (keysOf rest).Nodup := hndc.2
    have hknotin : k ∉ keysOf rest := hndc.1
    constructor
    · intro hmem
      rcases List.mem_cons.mp hmem with h | h
      · subst h
        rw [lookupText, if_pos hk]
      · have hlk : lookupText rest d.text = some d := (ih hkeyed2 hnd2).mp h
        have hdt : d.text ∈ keysOf rest := by
          obtain ⟨p, hp, hpd⟩ := List.mem_map.mp h
          have hpk := hkeyed2 p hp
          rw [keysOf]
          exact List.mem_map.mpr ⟨p, hp, by rw [hpk, hpd]⟩
        have hne : ¬ k = d.text := fun he => hknotin (he ▸ hdt)
        rw [lookupText, if_neg hne]
        exact hlk
    · intro hlk
      by_cases ht : k = d.text
      · rw [lookupText, if_pos ht] at hlk
        injection hlk with hvd
        subst hvd
        exact List.mem_cons_self _ _
      · rw [lookupText, if_neg ht] at hlk
        exact List.mem_cons_of_mem _ ((ih hkeyed2 hnd2).mpr hlk)

/-- Lookup over the deduplicated pool is last-writer-wins on the raw
pool, phrased through the filtered sub-pool. -/
theorem lookupText_dedup (docs : List Chunk) (t : String) :
    lookupText (docs.foldl insertUpd []) t =
      (docs.filter (fun x => x.text == t)).getLast? := by
  rw [lookupText_foldl, lastWrite_eq_getLast]
  show Option.or _ (lookupText [] t) = _
  cases hfr : (docs.filter (fun x => x.text == t)).getLast? <;> rfl

/-- C6: deduplication keys the pool by exact text equality — the
deduplicated pool has pairwise distinct texts, it contains a chunk of a
given text exactly when the raw pool does, and the surviving chunk for
each text is the last chunk of that text in the raw pool. -/
theorem C6_dedup_by_text (docs : List Chunk) :
    ((dedupByText docs).map (fun d => d.text)).Nodup ∧
    (∀ t : String, (∃ d ∈ dedupByText docs, d.text = t) ↔ ∃ d ∈ docs, d.text = t) ∧
    (∀ d ∈ dedupByText docs,
      (docs.filter (fun x => x.text == d.text)).getLast? = some d) ∧
    (∀ (stores : List (String × StoreData)) (retrieve : String → List Chunk),
      uniqueDocs stores retrieve = dedupByText (retrievedPool stores retrieve)) := by
  have hkeyed : keyedBy (docs.foldl insertUpd []) :=
    keyedBy_foldl docs (fun p hp => absurd hp (List.not_mem_nil p))
  have hnd : (keysOf (docs.foldl insertUpd [])).Nodup :=
    keysNodup_foldl docs List.nodup_nil
  have hlast : ∀ d ∈ dedupByText docs,
      (docs.filter (fun x => x.text == d.text)).getLast? = some d := by
    intro d hd
    rw [← lookupText_dedup]
    exact (mem_values_iff_lookupText hkeyed hnd d).mp hd
  refine ⟨?_, ?_, hlast, fun stores retrieve => rfl⟩
  · rw [dedupByText, List.map_map]
    have hcongr : (docs.foldl insertUpd []).map ((fun d : Chunk => d.text) ∘ Prod.snd) =
        (docs.foldl insertUpd []).map Prod.fst :=
      List.map_congr_left (fun p hp => (hkeyed p hp).symm)
    rw [hcongr]
    exact hnd
  · intro t
    constructor
    · rintro ⟨d, hd, rfl⟩
      have hgl := hlast d hd
      have hmemf := mem_of_getLast_eq hgl
      exact ⟨d, (List.mem_filter.mp hmemf).1, rfl⟩
    · rintro ⟨d, hd, rfl⟩
      have hmemf : d ∈ docs.filter (fun x => x.text == d.text) :=
        List.mem_filter.mpr ⟨hd, by simp⟩
      have hne : docs.filter (fun x => x.text == d.text) ≠ [] :=
        List.ne_nil_of_mem hmemf
      obtain ⟨x, hx⟩ := Option.isSome_iff_exists.mp (List.getLast?_isSome.mpr hne)
      have hxf : x ∈ docs.filter (fun x => x.text == d.text) := mem_of_getLast_eq hx
      have hxt : x.text = d.text := by
        have := (List.mem_filter.mp hxf).2
        simpa using this
      refine ⟨x, ?_, hxt⟩
      rw [dedupByText]
      apply (mem_values_iff_lookupText hkeyed hnd x).mpr
      rw [lookupText_dedup, hxt]
      exact hx

/-- Witness for C6: in a pool where the texts of the first and third
chunks collide, the survivor for that text is the third chunk. -/
theorem C6_witness :
    (wDocs.filter (fun x => x.text == wDupB.text)).getLast? = some wDupB :=
  (C6_dedup_by_text wDocs).2.2.1 wDupB (by decide)

/-! Claim C7. -/

/-- C7: a failing scoring call yields `none` for its chunk; an
out-of-range relevance score is rejected, never clamped — a surviving
scored chunk carries the raw score, which is inside the range; the
scored list is a per-chunk filterMap, and a chunk whose scoring fails
removes only its own contribution, leaving the outcomes of the chunks
around it unchanged. -/
theorem C7_scoring_isolation :
    (∀ c : Chunk, process_chunk none c = none) ∧
    (∀ (r : LLMResponse) (c : Chunk),
      (r.relevance_score < 0 ∨ 1 < r.relevance_score) →
        process_chunk (some r) c = none) ∧
    (∀ (r : LLMResponse) (c : Chunk) (p : ProcessedChunk),
      process_chunk (some r) c = some p →
        p.relevance_score = r.relevance_score ∧
          0 ≤ p.relevance_score ∧ p.relevance_score ≤ 1) ∧
    (∀ (stores : List (String × StoreData)) (retrieve : String → List Chunk)
        (llm : Chunk → List String → Option LLMResponse),
      validResults stores retrieve llm = (scheduledChunks stores retrieve).filterMap
        (fun p => process_chunk (llm p.1 p.2) p.1)) ∧
    (∀ (llm : Chunk → List String → Option LLMResponse)
        (xs ys : List (Chunk × List String)) (cd : Chunk × List String),
      process_chunk (llm cd.1 cd.2) cd.1 = none →
        (xs ++ cd :: ys).filterMap (fun p => process_chunk (llm p.1 p.2) p.1) =
          xs.filterMap (fun p => process_chunk (llm p.1 p.2) p.1) ++
            ys.filterMap (fun p => process_chunk (llm p.1 p.2) p.1)) := by
  refine ⟨fun c => rfl, ?_, ?_, ?_, ?_⟩
  · intro r c hout
    have hrange : ¬ (0 ≤ r.relevance_score ∧ r.relevance_score ≤ 1) := by
      rcases hout with h | h
      · exact fun hc => absurd hc.1 (not_le.mpr h)
      · exact fun hc => absurd hc.2 (not_le.mpr h)
    simp only [process_chunk]
    rw [if_neg hrange]
  · intro r c p hp
    simp only [process_chunk] at hp
    by_cases hr : 0 ≤ r.relevance_score ∧ r.relevance_score ≤ 1
    · rw [if_pos hr] at hp
      injection hp with hp
      subst hp
      exact ⟨rfl, hr.1, hr.2⟩
    · rw [if_neg hr] at hp
      exact absurd hp Option.noConfusion
  · intro stores retrieve llm
    rw [validResults, processedResults, List.filterMap_map]
    rfl
  · intro llm xs ys cd hnone
    rw [List.filterMap_append, List.filterMap_cons, hnone]

/-- Witness for C7: the out-of-range response is dropped for its chunk,
and with the failing chunk in the middle of a batch the other chunks of
the batch are still scored. -/
theorem C7_witness :
    process_chunk (some wRespBad) wChunkTop = none ∧
    ([(wChunkTop, ["Results", "Methods"])] ++
        (wChunkFail, ["Results", "Methods"]) :: [(wChunkEdge, ["Results", "Methods"])]).filterMap
        (fun p => process_chunk (wLLM p.1 p.2) p.1) =
      [(wChunkTop, ["Results", "Methods"])].filterMap
          (fun p => process_chunk (wLLM p.1 p.2) p.1) ++
        [(wChunkEdge, ["Results", "Methods"])].filterMap
          (fun p => process_chunk (wLLM p.1 p.2) p.1) :=
  ⟨C7_scoring_isolation.2.1 wRespBad wChunkTop (Or.inr (by decide)),
   C7_scoring_isolation.2.2.2.2 wLLM [(wChunkTop, ["Results", "Methods"])]
     [(wChunkEdge, ["Results", "Methods"])] (wChunkFail, ["Results", "Methods"])
     (by decide)⟩

/-! Claim C8. -/

/-- C8: ingestion handles every uploaded document independently — a
document whose load, zero-page check or embedding fails is skipped
without affecting the outcome of any other document, the success list
contains exactly the pdf-named files whose processing succeeded, and the
endpoint fails precisely when the success list is empty. -/
theorem C8_ingest_isolation (files : List String)
    (load : String → Option (List Page)) (embed : String → Option Unit) :
    (∀ (pre post : List String) (f : String),
      process_pdf (load f) (embed f) = none →
        ingestOutcomes (pre ++ f :: post) load embed =
          ingestOutcomes (pre ++ post) load embed) ∧
    (∀ e : Option Unit, process_pdf (some []) e = none) ∧
    (∀ r : PDFAnalysisResult, r ∈ ingestOutcomes files load embed ↔
      ∃ f ∈ files, isPdfName f = true ∧ ∃ data : StoreData,
        process_pdf (load f) (embed f) = some data ∧
          r = { filename := f, status := "Successfully processed and indexed.",
                extracted_headings_count := data.headings.length }) ∧
    ((∃ e : IngestError, analyze_pdfs files load embed = .error e) ↔
      ingestOutcomes files load embed = []) := by
  refine ⟨?_, fun e => rfl, ?_, ?_⟩
  · intro pre post f hfail
    simp [ingestOutcomes, List.filterMap_append, List.filterMap_cons, hfail]
  · intro r
    rw [ingestOutcomes, List.mem_filterMap]
    constructor
    · rintro ⟨f, hf, hsome⟩
      by_cases hp : isPdfName f
      · rw [if_pos hp] at hsome
        rcases Option.map_eq_some'.mp hsome with ⟨data, hdata, hr⟩
        exact ⟨f, hf, hp, data, hdata, hr.symm⟩
      · rw [if_neg hp] at hsome
        exact absurd hsome Option.noConfusion
    · rintro ⟨f, hf, hp, data, hdata, hr⟩
      refine ⟨f, hf, ?_⟩
      rw [if_pos hp, hdata, hr]
      rfl
  · constructor
    · rintro ⟨e, he⟩
      rw [analyze_pdfs] at he
      by_cases h1 : files = []
      · rw [h1]
        rfl
      · rw [if_neg h1] at he
        by_cases h2 : ingestOutcomes files load embed = []
        · exact h2
        · rw [if_neg h2] at he
          exact absurd he Except.noConfusion
    · intro h2
      by_cases h1 : files = []
      · exact ⟨.noFiles, by rw [analyze_pdfs, if_pos h1]⟩
      · exact ⟨.allFailed, by rw [analyze_pdfs, if_neg h1, if_pos h2]⟩

/-- Witness for C8: removing the document whose load raises from the
middle of the batch leaves the outcomes of the surrounding documents
unchanged. -/
theorem C8_witness :
    ingestOutcomes (["good.pdf"] ++ "broken.pdf" :: ["empty.pdf"]) wLoad wEmbed =
      ingestOutcomes (["good.pdf"] ++ ["empty.pdf"]) wLoad wEmbed :=
  (C8_ingest_isolation wFiles wLoad wEmbed).1 ["good.pdf"] ["empty.pdf"]
    "broken.pdf" (by decide)

/-! Claim C10. -/

/-- C10: the scheduling lookup before scoring is total and never raises
— a chunk is paired with the headings of its store exactly when its
source metadata is present and is a registry key; a chunk with a missing
source is never scheduled, and a chunk whose source is missing or
unregistered is dropped silently, the scheduled list of the remaining
chunks being exactly as if it were absent. -/
theorem C10_schedule_lookup (stores : List (String × StoreData)) :
    (∀ (d c : Chunk) (h : List String),
      scheduleChunk stores d = some (c, h) →
        c = d ∧ ∃ s data, d.source = some s ∧ stores.lookup s = some data ∧
          h = data.headings) ∧
    (∀ d : Chunk, (scheduleChunk stores d).isSome = true ↔
      ∃ s data, d.source = some s ∧ stores.lookup s = some data) ∧
    (∀ d : Chunk, d.source = none → scheduleChunk stores d = none) ∧
    (∀ (docs1 docs2 : List Chunk) (bad : Chunk),
      scheduleChunk stores bad = none →
        scheduledOf stores (docs1 ++ bad :: docs2) =
          scheduledOf stores (docs1 ++ docs2)) := by
  refine ⟨?_, ?_, ?_, ?_⟩
  · intro d c h hsc
    cases hsrc : d.source with
    | none => simp [scheduleChunk, hsrc] at hsc
    | some s =>
      cases hl : stores.lookup s with
      | none => simp [scheduleChunk, hsrc, hl] at hsc
      | some data =>
        simp only [scheduleChunk, hsrc, hl, Option.some.injEq, Prod.mk.injEq] at hsc
        exact ⟨hsc.1.symm, s, data, rfl, hl, hsc.2.symm⟩
  · intro d
    constructor
    · intro hs
      cases hsrc : d.source with
      | none => simp [scheduleChunk, hsrc] at hs
      | some s =>
        cases hl : stores.lookup s with
        | none => simp [scheduleChunk, hsrc, hl] at hs
        | some data => exact ⟨s, data, rfl, hl⟩
    · rintro ⟨s, data, hsrc, hl⟩
      simp [scheduleChunk, hsrc, hl]
  · intro d hsrc
    simp [scheduleChunk, hsrc]
  · intro docs1 docs2 bad hbad
    rw [scheduledOf, scheduledOf, List.filterMap_append, List.filterMap_append,
      List.filterMap_cons, hbad]

/-- Witness for C10: dropping the chunk with the unregistered source
from the middle of the pool leaves the scheduled list unchanged. -/
theorem C10_witness :
    scheduledOf wStores ([wChunkTop] ++ wChunkStray :: [wChunkEdge]) =
      scheduledOf wStores ([wChunkTop] ++ [wChunkEdge]) :=
  (C10_schedule_lookup wStores).2.2.2 [wChunkTop] [wChunkEdge] wChunkStray (by decide)

end RagPipeline
